import Mathlib

/-!
Verification of the PharmaPulse dashboard core (`app.py`): the column
classifier (pandas dtype detection, lines 169-170), the sequential quick-filter
loop (lines 188-194), the low-cardinality advisory pass (lines 207-217) and the
effect-size helper `cohen_d` (lines 26-37).

The dataset is embedded shallowly: a cell is a number (integer or floating
point), a text value, a boolean, a date, or a missing marker, reflecting the
value kinds `pd.read_excel` can produce from a spreadsheet.  A loaded dataframe
carries, per column, the dtype that pandas' load-time inference assigns; the
classifier and the filter loop are translated from the source line by line.
Numeric arithmetic in `cohen_d` is modelled exactly over ℚ.
-/

namespace PharmaPulse

/-- A spreadsheet cell value as produced by the loader: integers and floats
(`np.number` cells), text, booleans, dates (modelled as a day count), and the
missing marker (NaN / empty cell). -/
inductive Cell where
  | intC (n : Int)
  | floatC (q : ℚ)
  | strC (s : String)
  | boolC (b : Bool)
  | dateC (d : Int)
  | missing
deriving DecidableEq, Repr

/-- Column dtypes pandas infers from spreadsheet data: `int64`, `float64`,
`bool`, `datetime64`, `object`. -/
inductive Dtype where
  | intD
  | floatD
  | boolD
  | dateD
  | objectD
deriving DecidableEq, Repr

/-- Is the cell a number (integer or floating point)? -/
def Cell.isNum : Cell → Bool
  | .intC _ => true
  | .floatC _ => true
  | _ => false

/-- Is the cell an integer? -/
def Cell.isInt : Cell → Bool
  | .intC _ => true
  | _ => false

/-- Is the cell a boolean? -/
def Cell.isBool : Cell → Bool
  | .boolC _ => true
  | _ => false

/-- Is the cell a date? -/
def Cell.isDate : Cell → Bool
  | .dateC _ => true
  | _ => false

/-- Is the cell the missing marker? -/
def Cell.isMissing : Cell → Bool
  | .missing => true
  | _ => false

/-- A cell of the simple kinds of the spec's data model: number, text or
missing. -/
def Cell.isSimple : Cell → Bool
  | .intC _ => true
  | .floatC _ => true
  | .strC _ => true
  | .missing => true
  | _ => false

/-- Pandas load-time dtype inference for one column, as `pd.read_excel`
performs it: a column with no rows defaults to `object`; an all-integer column
with no missing cells is `int64`; a column whose non-missing cells are all
numeric (missing cells become NaN) is `float64`, including an all-missing
column; an all-boolean column with no missing cells is `bool`; a column of
dates and missing cells is `datetime64`; everything else (any text cell, or a
mix of kinds) is `object`. -/
def inferDtype (cells : List Cell) : Dtype :=
  if cells.isEmpty then .objectD
  else if cells.all Cell.isInt then .intD
  else if cells.all (fun c => c.isNum || c.isMissing) then .floatD
  else if cells.all Cell.isBool then .boolD
  else if cells.all (fun c => c.isDate || c.isMissing) then .dateD
  else .objectD

/-- A loaded dataframe: named columns, each with its load-time dtype, and the
rows.  Row `r`'s cell in column `i` is `r.getD i Cell.missing`. -/
structure Df where
  header : List (String × Dtype)
  rows : List (List Cell)
deriving DecidableEq, Repr

/-- The column names, in order (`df.columns`). -/
def Df.colNames (df : Df) : List String :=
  df.header.map Prod.fst

/-- Row count (`len(df)`). -/
def Df.rowCount (df : Df) : Nat :=
  df.rows.length

/-- Loading: the dtype of each named column is inferred from its cells
(`pd.read_excel`). -/
def loadDf (names : List String) (rows : List (List Cell)) : Df :=
  { header := (List.range names.length).map fun i =>
      (names.getD i "", inferDtype (rows.map fun r => r.getD i Cell.missing))
    rows := rows }

/-- `numeric_cols = df.select_dtypes(include=[np.number]).columns.tolist()`
(app.py line 169): columns of `int64` or `float64` dtype.  `np.number` does
not include `bool` or `datetime64`. -/
def Df.numericCols (df : Df) : List String :=
  (df.header.filter fun p => p.2 = Dtype.intD ∨ p.2 = Dtype.floatD).map Prod.fst

/-- `categorical_cols = df.select_dtypes(include=['object','category']).columns.tolist()`
(app.py line 170): columns of `object` dtype (no `category` dtype arises from
`pd.read_excel`). -/
def Df.categoricalCols (df : Df) : List String :=
  (df.header.filter fun p => p.2 = Dtype.objectD).map Prod.fst

/-- Index of a column name in the header (`df[col]` resolution). -/
def Df.colIdx (df : Df) (c : String) : Option Nat :=
  df.header.findIdx? fun p => p.1 = c

/-- The cells of a named column, top to bottom. -/
def Df.colCells (df : Df) (c : String) : List Cell :=
  match df.colIdx c with
  | none => []
  | some i => df.rows.map fun r => r.getD i Cell.missing

/-- Pandas `Series.isin(sel)` membership test on one cell.  NaN matches NaN in
pandas' hash-based `isin`, which structural equality on `Cell` reproduces. -/
def isin (c : Cell) (sel : List Cell) : Bool :=
  sel.contains c

/-- `df[col].dropna().unique().tolist()` (app.py line 189): the distinct
non-missing values of a column in first-occurrence order — the option list the
filter widget offers. -/
def Df.distinctVals (df : Df) (c : String) : List Cell :=
  ((df.colCells c).filter fun v => !v.isMissing).foldl
    (fun acc v => if v ∈ acc then acc else acc ++ [v]) []

/-- One pass of the quick-filter loop body, `df = df[df[col].isin(sel)]`
(app.py line 192): keep the rows whose cell in column `c` is in `sel`.  The
widget only offers existing columns, so the `none` branch is unreachable in
the app; it is modelled as imposing no restriction. -/
def Df.filterOnce (df : Df) (c : String) (sel : List Cell) : Df :=
  match df.colIdx c with
  | none => df
  | some i => { df with rows := df.rows.filter fun r => isin (r.getD i Cell.missing) sel }

/-- A filter specification: the chosen columns in order, each with its
allowed-value selection. -/
abbrev Spec := List (String × List Cell)

/-- The whole quick-filter loop (app.py lines 188-192): the filters are applied
sequentially, each reassigning `df`. -/
def Df.applyFilters (df : Df) (spec : Spec) : Df :=
  spec.foldl (fun d e => d.filterOnce e.1 e.2) df

/-- The simultaneous-conjunction reading of a filter specification: a row is
kept iff for every specified column its cell passes that column's membership
test.  A column absent from the specification imposes no restriction. -/
def keepRow (hdr : List (String × Dtype)) (spec : Spec) (r : List Cell) : Bool :=
  spec.all fun e =>
    match hdr.findIdx? (fun p => p.1 = e.1) with
    | none => true
    | some i => isin (r.getD i Cell.missing) e.2

/-- `df[c].nunique()`: the number of distinct non-missing values of a
column. -/
def Df.nunique (df : Df) (c : String) : Nat :=
  (df.distinctVals c).length

/-- The dtype recorded for a column, `object` if the column does not exist. -/
def Df.dtypeOf (df : Df) (c : String) : Dtype :=
  match df.colIdx c with
  | none => .objectD
  | some i => ((df.header.getD i ("", .objectD))).2

/-- `df[c].dtype.kind in 'iu'` (app.py line 209): integer dtype. -/
def Df.isIntKind (df : Df) (c : String) : Bool :=
  df.dtypeOf c = Dtype.intD

/-- The advisory low-cardinality condition of app.py line 209:
`df[c].nunique() <= 10 and df[c].dtype.kind in 'iu'`. -/
def Df.lowCardFlag (df : Df) (c : String) : Bool :=
  df.nunique c ≤ 10 && df.isIntKind c

/-- `real_numeric` (app.py lines 207-212): the loop tests the low-cardinality
condition, does nothing in that branch (`pass`), and appends the column either
way. -/
def Df.realNumeric (df : Df) : List String :=
  df.numericCols.foldl
    (fun acc c => if df.lowCardFlag c then acc ++ [c] else acc ++ [c]) []

/-- `numeric_for_plot` (app.py lines 214-217): `real_numeric` when nonempty,
else `numeric_cols`. -/
def Df.numericForPlot (df : Df) : List String :=
  if df.realNumeric ≠ [] then df.realNumeric else df.numericCols

/-! ## Effect-size helper `cohen_d` (app.py lines 26-37)

The two inputs are pandas Series of floats with possible missing entries,
modelled as `List (Option ℚ)`; `dropna` discards the `none`s.  Arithmetic is
exact over ℚ.  The only non-rational step in the source is
`pooled = np.sqrt(q)` followed by the guard `pooled == 0`; since the radicand
`q` is nonnegative, `np.sqrt q == 0` exactly when `q == 0`, so the guard is
embedded as a test on the radicand and the returned value is represented by
the pair (numerator, radicand of the denominator). -/

/-- `Series.dropna()` on a float series. -/
def dropna (xs : List (Option ℚ)) : List ℚ :=
  xs.filterMap id

/-- Arithmetic mean (`np.mean`); 0 on an empty list (unreachable past the
size guard). -/
def listMean (xs : List ℚ) : ℚ :=
  xs.sum / xs.length

/-- Sample variance with `ddof=1`, the square of `x.std(ddof=1)`:
`Σ (xᵢ - mean)² / (n - 1)`. -/
def sampleVar (xs : List ℚ) : ℚ :=
  ((xs.map fun x => (x - listMean xs) ^ 2).sum) / (xs.length - 1 : ℚ)

/-- The radicand of the pooled standard deviation of app.py line 34:
`((nx-1)*sdx**2 + (ny-1)*sdy**2) / (nx+ny-2)`, on already-dropna'd samples. -/
def pooledSq (xs ys : List ℚ) : ℚ :=
  (((xs.length : ℚ) - 1) * sampleVar xs + ((ys.length : ℚ) - 1) * sampleVar ys)
    / ((xs.length : ℚ) + (ys.length : ℚ) - 2)

/-- Result of `cohen_d`: either NaN, or the value
`meanDiff / Real.sqrt radicand` represented by the pair of its numerator and
the (nonzero) radicand of its denominator. -/
inductive CohenResult where
  | nan
  | val (meanDiff radicand : ℚ)
deriving DecidableEq, Repr

/-- `cohen_d(x, y)` (app.py lines 26-37): drop missing values; if either
sample has fewer than 2 values return NaN; compute the pooled standard
deviation; if it is zero return NaN; otherwise divide the difference of means
by it. -/
def cohen_d (x y : List (Option ℚ)) : CohenResult :=
  let xs := dropna x
  let ys := dropna y
  if xs.length < 2 ∨ ys.length < 2 then .nan
  else if pooledSq xs ys = 0 then .nan
  else .val (listMean xs - listMean ys) (pooledSq xs ys)

/-! ## Concrete example datasets (spec §8 scenarios) used by witnesses -/

/-- Scenario A/B dataset: `Age=[23,45,31]` numeric, `Drug=["A","B","A"]`
categorical. -/
def dfEx : Df :=
  loadDf ["Age", "Drug"]
    [[Cell.intC 23, Cell.strC "A"], [Cell.intC 45, Cell.strC "B"],
     [Cell.intC 31, Cell.strC "A"]]

/-- A one-column dataset with a missing cell, for the missing-value behavior
of the filter loop. -/
def dfMiss : Df :=
  loadDf ["A"] [[Cell.strC "x"], [Cell.missing]]

/-! ## Filter-engine lemmas -/

theorem Df.filterOnce_of_none {df : Df} {c : String} (sel : List Cell)
    (h : df.colIdx c = none) : df.filterOnce c sel = df := by
  unfold Df.filterOnce
  rw [h]

theorem Df.filterOnce_of_some {df : Df} {c : String} {i : Nat} (sel : List Cell)
    (h : df.colIdx c = some i) :
    df.filterOnce c sel =
      { df with rows := df.rows.filter fun r => isin (r.getD i Cell.missing) sel } := by
  unfold Df.filterOnce
  rw [h]

theorem Df.filterOnce_header (df : Df) (c : String) (sel : List Cell) :
    (df.filterOnce c sel).header = df.header := by
  unfold Df.filterOnce
  cases df.colIdx c <;> rfl

theorem Df.applyFilters_cons (df : Df) (e : String × List Cell) (spec : Spec) :
    df.applyFilters (e :: spec) = (df.filterOnce e.1 e.2).applyFilters spec := rfl

/-- Filtering never touches the header: the column set and the recorded
dtypes survive every pass of the loop. -/
theorem Df.applyFilters_header (df : Df) (spec : Spec) :
    (df.applyFilters spec).header = df.header := by
  induction spec generalizing df with
  | nil => rfl
  | cons e rest ih =>
      rw [Df.applyFilters_cons, ih, Df.filterOnce_header]

theorem Df.colIdx_congr {df₁ df₂ : Df} (h : df₁.header = df₂.header) (c : String) :
    df₁.colIdx c = df₂.colIdx c := by
  unfold Df.colIdx
  rw [h]

theorem keepRow_cons (hdr : List (String × Dtype)) (e : String × List Cell)
    (spec : Spec) (r : List Cell) :
    keepRow hdr (e :: spec) r =
      ((match hdr.findIdx? (fun p => p.1 = e.1) with
        | none => true
        | some i => isin (r.getD i Cell.missing) e.2) && keepRow hdr spec r) := rfl

/-- The sequential filter loop computes the simultaneous conjunction: the
surviving rows are exactly the source rows that pass every specified
column's membership test. -/
theorem Df.applyFilters_rows (df : Df) (spec : Spec) :
    (df.applyFilters spec).rows = df.rows.filter (keepRow df.header spec) := by
  induction spec generalizing df with
  | nil =>
      exact (List.filter_eq_self.mpr fun r _ => rfl).symm
  | cons e rest ih =>
      rw [Df.applyFilters_cons, ih, Df.filterOnce_header]
      cases h : df.colIdx e.1 with
      | none =>
          rw [Df.filterOnce_of_none e.2 h]
          refine List.filter_congr fun r _ => ?_
          rw [keepRow_cons]
          have hfind : df.header.findIdx? (fun p => p.1 = e.1) = none := h
          rw [hfind, Bool.true_and]
      | some i =>
          rw [Df.filterOnce_of_some e.2 h, List.filter_filter]
          refine List.filter_congr fun r _ => ?_
          rw [keepRow_cons]
          have hfind : df.header.findIdx? (fun p => p.1 = e.1) = some i := h
          rw [hfind, Bool.and_comm]

theorem isin_iff_mem {c : Cell} {sel : List Cell} : isin c sel = true ↔ c ∈ sel := by
  simp [isin]

/-- The accumulating dedup of `distinctVals` only produces elements of the
accumulator or of the traversed list. -/
theorem mem_dedupAcc {l acc : List Cell} {x : Cell}
    (h : x ∈ l.foldl (fun acc v => if v ∈ acc then acc else acc ++ [v]) acc) :
    x ∈ acc ∨ x ∈ l := by
  induction l generalizing acc with
  | nil => exact Or.inl h
  | cons a t ih =>
      rw [List.foldl_cons] at h
      rcases ih h with h' | h'
      · by_cases ha : a ∈ acc
        · rw [if_pos ha] at h'
          exact Or.inl h'
        · rw [if_neg ha] at h'
          rcases List.mem_append.mp h' with h'' | h''
          · exact Or.inl h''
          · exact Or.inr (List.mem_cons.mpr (Or.inl (List.mem_singleton.mp h'')))
      · exact Or.inr (List.mem_cons_of_mem a h')

/-- The accumulating dedup never drops what is already accumulated. -/
theorem subset_dedupAcc (l : List Cell) (acc : List Cell) :
    acc ⊆ l.foldl (fun acc v => if v ∈ acc then acc else acc ++ [v]) acc := by
  induction l generalizing acc with
  | nil => exact fun x hx => hx
  | cons a t ih =>
      rw [List.foldl_cons]
      intro x hx
      refine ih _ ?_
      by_cases ha : a ∈ acc
      · rw [if_pos ha]; exact hx
      · rw [if_neg ha]; exact List.mem_append_left _ hx

/-- Every element of the traversed list ends up in the accumulating dedup. -/
theorem mem_dedupAcc_of_mem {l : List Cell} {x : Cell} (hx : x ∈ l) (acc : List Cell) :
    x ∈ l.foldl (fun acc v => if v ∈ acc then acc else acc ++ [v]) acc := by
  induction l generalizing acc with
  | nil => cases hx
  | cons a t ih =>
      rw [List.foldl_cons]
      rcases List.mem_cons.mp hx with rfl | hxt
      · refine subset_dedupAcc t _ ?_
        by_cases ha : x ∈ acc
        · rw [if_pos ha]; exact ha
        · rw [if_neg ha]; exact List.mem_append_right _ (List.mem_singleton.mpr rfl)
      · exact ih hxt _

/-- The option list offered by the filter widget (`dropna().unique()`) never
contains the missing marker. -/
theorem missing_not_mem_distinctVals (df : Df) (c : String) :
    Cell.missing ∉ df.distinctVals c := by
  intro h
  rcases mem_dedupAcc h with h' | h'
  · cases h'
  · have := (List.mem_filter.mp h').2
    simp [Cell.isMissing] at this

theorem Df.colIdx_isSome {df : Df} {c : String} (h : c ∈ df.colNames) :
    ∃ i, df.colIdx c = some i := by
  have hany : df.header.any (fun p => p.1 = c) = true := by
    rw [List.any_eq_true]
    rcases List.mem_map.mp h with ⟨p, hp, hpc⟩
    exact ⟨p, hp, by simp [hpc]⟩
  have := @List.findIdx?_isSome _ df.header (fun p => p.1 = c)
  rw [hany] at this
  exact Option.isSome_iff_exists.mp this

/-- Extract one specified column's membership test from a passing row. -/
theorem keepRow_entry {hdr : List (String × Dtype)} {spec : Spec} {r : List Cell}
    (h : keepRow hdr spec r = true) {e : String × List Cell} (he : e ∈ spec)
    {i : Nat} (hi : hdr.findIdx? (fun p => p.1 = e.1) = some i) :
    isin (r.getD i Cell.missing) e.2 = true := by
  have := (List.all_eq_true.mp h) e he
  rw [hi] at this
  exact this

/-! ## Claim theorems: filter engine -/

/-- C5: for every source dataset and filter specification, the working
dataset's row order is a subsequence of the source dataset's row order — rows
keep their original relative order, none is duplicated, none is added. -/
theorem c5_working_rows_sublist (df : Df) (spec : Spec) :
    (df.applyFilters spec).rows.Sublist df.rows := by
  rw [Df.applyFilters_rows]
  exact List.filter_sublist df.rows

/-- C6: filtering changes only the row set — the working dataset's column set
equals the source's, and the Numeric/Categorical classification (recorded in
the header at load time and never re-evaluated) is unchanged by any filter
specification. -/
theorem c6_classification_stable (df : Df) (spec : Spec) :
    (df.applyFilters spec).colNames = df.colNames ∧
    (df.applyFilters spec).numericCols = df.numericCols ∧
    (df.applyFilters spec).categoricalCols = df.categoricalCols := by
  have h := df.applyFilters_header spec
  exact ⟨by rw [Df.colNames, h, Df.colNames],
         by rw [Df.numericCols, h, Df.numericCols],
         by rw [Df.categoricalCols, h, Df.categoricalCols]⟩

/-- C3: if some (existing) column's allowed-value set is specified as the
empty set, the working dataset has zero rows — the empty selection excludes
every row rather than acting as a no-op — and the zero-row result is a
well-defined count, not an error. -/
theorem c3_empty_selection_zero_rows (df : Df) (spec : Spec) (c : String)
    (hmem : (c, ([] : List Cell)) ∈ spec) (hcol : c ∈ df.colNames) :
    (df.applyFilters spec).rowCount = 0 ∧ (df.applyFilters spec).rows = [] := by
  obtain ⟨i, hi⟩ := Df.colIdx_isSome hcol
  have hrows : (df.applyFilters spec).rows = [] := by
    rw [Df.applyFilters_rows, List.filter_eq_nil_iff]
    intro r _ hk
    have := keepRow_entry hk hmem hi
    simp [isin] at this
  exact ⟨by rw [Df.rowCount, hrows]; rfl, hrows⟩

/-- C4: whenever a column is selected for filtering with an allowed-value set
free of the missing marker — and the offered option list
`df[col].dropna().unique()` never contains it — every row whose value in that
column is missing is excluded from the working dataset. -/
theorem c4_missing_rows_excluded (df : Df) (spec : Spec) (c : String)
    (sel : List Cell) (i : Nat) (hmem : (c, sel) ∈ spec)
    (hsel : Cell.missing ∉ sel) (hi : df.colIdx c = some i) :
    ((df.applyFilters spec).rows.all fun r => !(r.getD i Cell.missing).isMissing) = true
    ∧ Cell.missing ∉ df.distinctVals c := by
  refine ⟨?_, missing_not_mem_distinctVals df c⟩
  rw [List.all_eq_true]
  intro r hr
  rw [Df.applyFilters_rows] at hr
  have hk : keepRow df.header spec r = true := (List.mem_filter.mp hr).2
  have hin := keepRow_entry hk hmem hi
  have hcell : r.getD i Cell.missing ∈ sel := isin_iff_mem.mp hin
  have hne : r.getD i Cell.missing ≠ Cell.missing := fun h => hsel (h ▸ hcell)
  cases h : r.getD i Cell.missing <;> simp [Cell.isMissing]
  exact hne h

/-- C7: narrowing one column's allowed-value set by removing a value never
increases the working row count. -/
theorem c7_narrowing_monotone (df : Df) (s₁ s₂ : Spec) (c : String)
    (sel : List Cell) (v : Cell) :
    (df.applyFilters (s₁ ++ (c, sel.erase v) :: s₂)).rowCount ≤
      (df.applyFilters (s₁ ++ (c, sel) :: s₂)).rowCount := by
  rw [Df.rowCount, Df.rowCount, Df.applyFilters_rows, Df.applyFilters_rows]
  refine (List.monotone_filter_right df.rows ?_).length_le
  intro r h
  simp only [keepRow, List.all_append, List.all_cons, Bool.and_eq_true] at h ⊢
  refine ⟨h.1, ?_, h.2.2⟩
  have hmid := h.2.1
  cases hfind : df.header.findIdx? (fun p => p.1 = c) with
  | none => rfl
  | some i =>
      rw [hfind] at hmid
      exact isin_iff_mem.mpr (List.erase_subset _ _ (isin_iff_mem.mp hmid))

theorem Df.colCells_of_some {df : Df} {c : String} {i : Nat}
    (h : df.colIdx c = some i) :
    df.colCells c = df.rows.map fun r => r.getD i Cell.missing := by
  unfold Df.colCells
  rw [h]

theorem mem_distinctVals {df : Df} {c : String} {v : Cell}
    (hv : v ∈ df.colCells c) (hm : v.isMissing = false) :
    v ∈ df.distinctVals c :=
  mem_dedupAcc_of_mem (List.mem_filter.mpr ⟨hv, by rw [hm]; rfl⟩) []

theorem Df.eq_of_parts {d₁ d₂ : Df} (h : d₁.header = d₂.header)
    (r : d₁.rows = d₂.rows) : d₁ = d₂ := by
  cases d₁; cases d₂
  simp_all

/-- C1 (counterexample): on a column containing a missing value, selecting
the full offered value list `dropna().unique()` is not a no-op — the missing
row is still dropped, so the working dataset differs from the source even
though no other filter is active. -/
theorem c1_counterexample :
    dfMiss.rowCount = 2 ∧
    (dfMiss.applyFilters [("A", dfMiss.distinctVals "A")]).rowCount = 1 ∧
    dfMiss.applyFilters [("A", dfMiss.distinctVals "A")] ≠ dfMiss := by decide

/-- C1 (amended): the working dataset contains exactly the source rows
passing every specified column's membership test (conjunction across columns,
membership within a column), and a column absent from the specification
imposes no restriction; a column filtered with the full set of its distinct
non-missing values imposes no restriction provided the column has no missing
cells (otherwise it still drops the rows missing in that column). -/
theorem c1_filter_semantics (df : Df) (s₁ s₂ : Spec) (c : String)
    (hnomiss : ∀ v ∈ df.colCells c, v.isMissing = false) :
    df.applyFilters (s₁ ++ (c, df.distinctVals c) :: s₂) = df.applyFilters (s₁ ++ s₂)
    ∧ ∀ spec : Spec,
        (df.applyFilters spec).rows = df.rows.filter (keepRow df.header spec) := by
  refine ⟨?_, fun spec => df.applyFilters_rows spec⟩
  refine Df.eq_of_parts ?_ ?_
  · rw [df.applyFilters_header, df.applyFilters_header]
  · rw [Df.applyFilters_rows, Df.applyFilters_rows]
    refine List.filter_congr fun r hr => ?_
    simp only [keepRow, List.all_append, List.all_cons]
    have hmid : (match df.header.findIdx? (fun p => p.1 = c) with
        | none => true
        | some i => isin (r.getD i Cell.missing) (df.distinctVals c)) = true := by
      cases hfind : df.header.findIdx? (fun p => p.1 = c) with
      | none => rfl
      | some i =>
          have hcell : r.getD i Cell.missing ∈ df.colCells c := by
            rw [Df.colCells_of_some (show df.colIdx c = some i from hfind)]
            exact List.mem_map_of_mem _ hr
          exact isin_iff_mem.mpr (mem_distinctVals hcell (hnomiss _ hcell))
    rw [hmid, Bool.true_and]

/-- C1 witness: on the scenario dataset (no missing cells in `Drug`),
filtering `Drug` with its full distinct-value list equals applying no
filter. -/
theorem c1_filter_semantics_witness :
    dfEx.applyFilters [("Drug", dfEx.distinctVals "Drug")] = dfEx.applyFilters [] :=
  (c1_filter_semantics dfEx [] [] "Drug" (by decide)).1

/-- C3 witness: the empty selection on `Drug` yields zero rows on the
scenario dataset. -/
theorem c3_witness :
    (dfEx.applyFilters [("Drug", ([] : List Cell))]).rowCount = 0 ∧
    (dfEx.applyFilters [("Drug", ([] : List Cell))]).rows = [] :=
  c3_empty_selection_zero_rows dfEx [("Drug", [])] "Drug" (by decide) (by decide)

/-- C4 witness: with the default full selection on a column holding a missing
cell, the missing row is excluded and the offered list is missing-free. -/
theorem c4_witness :
    ((dfMiss.applyFilters [("A", dfMiss.distinctVals "A")]).rows.all
      fun r => !(r.getD 0 Cell.missing).isMissing) = true
    ∧ Cell.missing ∉ dfMiss.distinctVals "A" :=
  c4_missing_rows_excluded dfMiss [("A", dfMiss.distinctVals "A")] "A"
    (dfMiss.distinctVals "A") 0 (by decide) (by decide) (by decide)

/-! ## Classifier lemmas -/

theorem Cell.isNum_of_isInt {v : Cell} (h : v.isInt = true) : v.isNum = true := by
  cases v <;> simp_all [Cell.isInt, Cell.isNum]

/-- For a nonempty column of simple cells (numbers, text, missing), the
inferred dtype is numeric exactly when every non-missing cell is a number,
and is `object` otherwise; `bool` and `datetime64` cannot arise. -/
theorem inferDtype_simple_char (cells : List Cell) (h0 : cells ≠ [])
    (hs : ∀ v ∈ cells, v.isSimple = true) :
    ((inferDtype cells = Dtype.intD ∨ inferDtype cells = Dtype.floatD) ↔
      ∀ v ∈ cells, v.isMissing = false → v.isNum = true)
    ∧ (inferDtype cells = Dtype.intD ∨ inferDtype cells = Dtype.floatD ∨
        inferDtype cells = Dtype.objectD) := by
  have hne : cells.isEmpty = false := by
    cases cells
    · exact absurd rfl h0
    · rfl
  by_cases hInt : cells.all Cell.isInt = true
  · have hd : inferDtype cells = Dtype.intD := by
      simp [inferDtype, hne, hInt]
    rw [hd]
    refine ⟨⟨fun _ v hv _ => Cell.isNum_of_isInt (List.all_eq_true.mp hInt v hv),
      fun _ => Or.inl rfl⟩, Or.inl rfl⟩
  · by_cases hNum : cells.all (fun v => v.isNum || v.isMissing) = true
    · have hd : inferDtype cells = Dtype.floatD := by
        simp [inferDtype, hne, hInt, hNum]
      rw [hd]
      refine ⟨⟨fun _ v hv hm => ?_, fun _ => Or.inr rfl⟩, Or.inr (Or.inl rfl)⟩
      have hv' := List.all_eq_true.mp hNum v hv
      rw [Bool.or_eq_true] at hv'
      rcases hv' with h | h
      · exact h
      · rw [hm] at h
        cases h
    · obtain ⟨w, hw, hwf⟩ : ∃ w, w ∈ cells ∧ ¬(w.isNum || w.isMissing) = true := by
        rw [← List.all_eq_false]
        cases h : cells.all fun v => v.isNum || v.isMissing
        · rfl
        · exact absurd h hNum
      rw [Bool.not_eq_true] at hwf
      have hwsimple := hs w hw
      obtain ⟨s, rfl⟩ : ∃ s, w = Cell.strC s := by
        cases w <;> simp_all [Cell.isSimple, Cell.isNum, Cell.isMissing]
      have hBool : cells.all Cell.isBool = false :=
        List.all_eq_false.mpr ⟨_, hw, by simp [Cell.isBool]⟩
      have hDate : cells.all (fun v => v.isDate || v.isMissing) = false :=
        List.all_eq_false.mpr ⟨_, hw, by simp [Cell.isDate, Cell.isMissing]⟩
      have hd : inferDtype cells = Dtype.objectD := by
        simp [inferDtype, hne, hInt, hNum, hBool, hDate]
      rw [hd]
      refine ⟨⟨fun h => by cases h <;> simp_all, fun hall => ?_⟩,
        Or.inr (Or.inr rfl)⟩
      have := hall _ hw rfl
      cases this

theorem loadDf_header_length (names : List String) (rows : List (List Cell)) :
    (loadDf names rows).header.length = names.length := by
  simp [loadDf]

theorem loadDf_header_getElem (names : List String) (rows : List (List Cell))
    (i : Nat) (h : i < names.length) :
    ((loadDf names rows).header.getD i ("", Dtype.objectD)) =
      (names.getD i "", inferDtype (rows.map fun r => r.getD i Cell.missing)) := by
  simp only [loadDf, List.getD_eq_getElem?_getD, List.getElem?_map]
  rw [List.getElem?_range h]
  rfl

theorem loadDf_colNames (names : List String) (rows : List (List Cell)) :
    (loadDf names rows).colNames = names := by
  apply List.ext_getElem
  · simp [Df.colNames, loadDf]
  · intro i h1 h2
    simp [Df.colNames, loadDf, List.getD_eq_getElem?_getD, List.getElem?_eq_getElem h2]

theorem Df.colIdx_spec {df : Df} {c : String} {i : Nat} (hi : df.colIdx c = some i) :
    ∃ h : i < df.header.length, (df.header[i]).1 = c := by
  obtain ⟨h, hp, -⟩ := List.findIdx?_eq_some_iff_getElem.mp hi
  exact ⟨h, by simpa using hp⟩

/-- Cells read out of the rows (with the missing marker as out-of-range
default) stay simple when all stored cells are simple. -/
theorem getD_simple {rows : List (List Cell)}
    (hs : ∀ r ∈ rows, ∀ v ∈ r, v.isSimple = true) (i : Nat) :
    ∀ v ∈ rows.map (fun r => r.getD i Cell.missing), v.isSimple = true := by
  intro v hv
  obtain ⟨r, hr, rfl⟩ := List.mem_map.mp hv
  by_cases h : i < r.length
  · rw [List.getD_eq_getElem?_getD, List.getElem?_eq_getElem h]
    exact hs r hr _ (List.getElem_mem h)
  · rw [List.getD_eq_getElem?_getD, List.getElem?_eq_none (Nat.le_of_not_lt h)]
    rfl

theorem loadDf_header_entry (names : List String) (rows : List (List Cell))
    (j : Nat) (hj : j < (loadDf names rows).header.length) :
    (loadDf names rows).header[j] =
      (names.getD j "", inferDtype (rows.map fun r => r.getD j Cell.missing)) := by
  have hjN : j < names.length := by
    rw [← loadDf_header_length names rows]
    exact hj
  have := loadDf_header_getElem names rows j hjN
  rw [← this, List.getD_eq_getElem?_getD, List.getElem?_eq_getElem hj]
  rfl

/-- C2 (counterexample): a single boolean column — a cell-value kind the
loader types as `bool` — lands in neither classification set, so the two sets
do not cover the full column set. -/
theorem c2_counterexample :
    (loadDf ["F"] [[Cell.boolC true]]).numericCols = [] ∧
    (loadDf ["F"] [[Cell.boolC true]]).categoricalCols = [] ∧
    (loadDf ["F"] [[Cell.boolC true]]).colNames = ["F"] := by decide

/-- C2 (amended): over nonempty datasets whose cells are of the spec's simple
kinds (number, text, missing) and whose column names are distinct, a column
is classified Numeric iff every non-missing cell in it is a number, and it is
Categorical iff it is not Numeric — so the two sets are disjoint and cover
all columns.  (Boolean or datetime cells put a column in neither set, and a
zero-row dataset makes every column Categorical.) -/
theorem c2_classifier_partition (names : List String) (rows : List (List Cell))
    (hnd : names.Nodup) (hr : rows ≠ [])
    (hs : ∀ r ∈ rows, ∀ v ∈ r, v.isSimple = true)
    (c : String) (hc : c ∈ names) :
    (c ∈ (loadDf names rows).numericCols ↔
      ∀ v ∈ (loadDf names rows).colCells c, v.isMissing = false → v.isNum = true)
    ∧ (c ∈ (loadDf names rows).categoricalCols ↔
        c ∉ (loadDf names rows).numericCols) := by
  set df := loadDf names rows with hdf
  have hcn : c ∈ df.colNames := by
    rw [hdf, loadDf_colNames]
    exact hc
  obtain ⟨i, hi⟩ := Df.colIdx_isSome hcn
  obtain ⟨hlt, hci⟩ := Df.colIdx_spec hi
  have hlen : df.header.length = names.length := loadDf_header_length names rows
  have hiN : i < names.length := hlen ▸ hlt
  have hentry := loadDf_header_entry names rows i hlt
  have hD : (df.header[i]).2 =
      inferDtype (rows.map fun r => r.getD i Cell.missing) := by
    rw [hentry]
  have hcolc : df.colCells c = rows.map fun r => r.getD i Cell.missing :=
    Df.colCells_of_some hi
  have huniq : ∀ j (hj : j < df.header.length), (df.header[j]).1 = c → j = i := by
    intro j hj hjc
    have hjN : j < names.length := hlen ▸ hj
    have h1 : names[j] = c := by
      have := loadDf_header_entry names rows j hj
      rw [this] at hjc
      rwa [List.getD_eq_getElem?_getD, List.getElem?_eq_getElem hjN] at hjc
    have h2 : names[i] = c := by
      rw [hentry] at hci
      rwa [List.getD_eq_getElem?_getD, List.getElem?_eq_getElem hiN] at hci
    exact hnd.getElem_inj_iff.mp (h1.trans h2.symm)
  have hnum : c ∈ df.numericCols ↔
      (inferDtype (rows.map fun r => r.getD i Cell.missing) = Dtype.intD ∨
       inferDtype (rows.map fun r => r.getD i Cell.missing) = Dtype.floatD) := by
    constructor
    · intro hmem
      obtain ⟨p, hp, hpc⟩ := List.mem_map.mp hmem
      obtain ⟨hpH, hPp⟩ := List.mem_filter.mp hp
      obtain ⟨j, hj, hpe⟩ := List.mem_iff_getElem.mp hpH
      have hji : j = i := huniq j hj (by rw [hpe]; exact hpc)
      subst hji
      have hp2 : p.2 = inferDtype (rows.map fun r => r.getD j Cell.missing) := by
        rw [← hpe]
        exact hD
      rw [← hp2]
      exact of_decide_eq_true hPp
    · intro hDnum
      refine List.mem_map.mpr ⟨df.header[i], List.mem_filter.mpr
        ⟨List.getElem_mem hlt, decide_eq_true ?_⟩, hci⟩
      rw [hD]
      exact hDnum
  have hcat : c ∈ df.categoricalCols ↔
      inferDtype (rows.map fun r => r.getD i Cell.missing) = Dtype.objectD := by
    constructor
    · intro hmem
      obtain ⟨p, hp, hpc⟩ := List.mem_map.mp hmem
      obtain ⟨hpH, hPp⟩ := List.mem_filter.mp hp
      obtain ⟨j, hj, hpe⟩ := List.mem_iff_getElem.mp hpH
      have hji : j = i := huniq j hj (by rw [hpe]; exact hpc)
      subst hji
      have hp2 : p.2 = inferDtype (rows.map fun r => r.getD j Cell.missing) := by
        rw [← hpe]
        exact hD
      rw [← hp2]
      exact of_decide_eq_true hPp
    · intro hDcat
      refine List.mem_map.mpr ⟨df.header[i], List.mem_filter.mpr
        ⟨List.getElem_mem hlt, decide_eq_true ?_⟩, hci⟩
      rw [hD]
      exact hDcat
  have hcellsne : (rows.map fun r => r.getD i Cell.missing) ≠ [] := by
    cases rows
    · exact absurd rfl hr
    · simp
  have char := inferDtype_simple_char (rows.map fun r => r.getD i Cell.missing)
    hcellsne (getD_simple hs i)
  refine ⟨?_, ?_⟩
  · rw [hnum, hcolc]
    exact char.1
  · rw [hcat, hnum]
    rcases char.2 with h | h | h <;> rw [h] <;> simp

/-- C2 witness: on the scenario dataset, `Age` is Numeric (all cells are
numbers) and the two classification sets partition the columns. -/
theorem c2_witness :
    ("Age" ∈ dfEx.numericCols ↔
      ∀ v ∈ dfEx.colCells "Age", v.isMissing = false → v.isNum = true)
    ∧ ("Age" ∈ dfEx.categoricalCols ↔ "Age" ∉ dfEx.numericCols) :=
  c2_classifier_partition ["Age", "Drug"]
    [[Cell.intC 23, Cell.strC "A"], [Cell.intC 45, Cell.strC "B"],
     [Cell.intC 31, Cell.strC "A"]]
    (by decide) (by decide) (by decide) "Age" (by decide)

/-- C8 (counterexample): a dataset with one column and zero rows is loaded
with `object` dtype, so the categorical classification set is the full column
list, not empty. -/
theorem c8_counterexample :
    (loadDf ["A"] []).rowCount = 0 ∧ (loadDf ["A"] []).categoricalCols = ["A"] := by
  decide

/-- C8 (amended): with zero columns both classification sets are empty; with
zero rows the numeric set is empty but the categorical set is the full column
set (each column defaults to `object` dtype); in either case the classifier
and the filter engine return well-defined (empty) results rather than
raising. -/
theorem c8_empty_dataset (names : List String) (rows : List (List Cell))
    (spec : Spec) :
    ((loadDf [] rows).numericCols = [] ∧ (loadDf [] rows).categoricalCols = [])
    ∧ ((loadDf names []).numericCols = []
        ∧ (loadDf names []).categoricalCols = (loadDf names []).colNames
        ∧ ((loadDf names []).applyFilters spec).rows = []) := by
  have hobj : ∀ p ∈ (loadDf names ([] : List (List Cell))).header, p.2 = Dtype.objectD := by
    intro p hp
    obtain ⟨j, hj, hpe⟩ := List.mem_iff_getElem.mp hp
    rw [← hpe, loadDf_header_entry]
    rfl
  refine ⟨⟨rfl, rfl⟩, ?_, ?_, ?_⟩
  · rw [Df.numericCols, List.filter_eq_nil_iff.mpr, List.map_nil]
    intro p hp
    rw [hobj p hp]
    simp
  · rw [Df.categoricalCols, Df.colNames, List.filter_eq_self.mpr]
    intro p hp
    rw [hobj p hp]
    simp
  · rw [Df.applyFilters_rows]
    have : (loadDf names ([] : List (List Cell))).rows = [] := rfl
    rw [this]
    rfl

/-! ## Claim theorems: advisory flag and effect size -/

/-- C9: the low-cardinality advisory check is inert — `real_numeric` equals
`numeric_cols` (its branch is `pass` and the append is unconditional), and so
does `numeric_for_plot`; the numeric column list used for plotting is exactly
the classifier's. -/
theorem c9_low_card_flag_inert (df : Df) :
    df.numericForPlot = df.numericCols ∧ df.realNumeric = df.numericCols := by
  have haux : ∀ (l acc : List String),
      l.foldl (fun acc c => if df.lowCardFlag c then acc ++ [c] else acc ++ [c]) acc
        = acc ++ l := by
    intro l
    induction l with
    | nil => intro acc; simp
    | cons a t ih =>
        intro acc
        rw [List.foldl_cons, ite_self, ih]
        simp
  have h : df.realNumeric = df.numericCols := by
    rw [Df.realNumeric, haux, List.nil_append]
  refine ⟨?_, h⟩
  rw [Df.numericForPlot]
  by_cases hne : df.realNumeric ≠ []
  · rw [if_pos hne]
    exact h
  · rw [if_neg hne]

theorem sampleVar_nonneg (xs : List ℚ) : 0 ≤ sampleVar xs := by
  rw [sampleVar]
  rcases xs with _ | ⟨a, l⟩
  · norm_num
  · apply div_nonneg
    · apply List.sum_nonneg
      intro q hq
      obtain ⟨x, -, rfl⟩ := List.mem_map.mp hq
      exact sq_nonneg _
    · have h : (0:ℚ) ≤ (l.length : ℚ) := Nat.cast_nonneg _
      rw [List.length_cons]
      push_cast
      linarith

theorem pooledSq_nonneg {xs ys : List ℚ} (hx : 2 ≤ xs.length) (hy : 2 ≤ ys.length) :
    0 ≤ pooledSq xs ys := by
  have hx' : (2:ℚ) ≤ (xs.length : ℚ) := by exact_mod_cast hx
  have hy' : (2:ℚ) ≤ (ys.length : ℚ) := by exact_mod_cast hy
  rw [pooledSq]
  apply div_nonneg
  · exact add_nonneg
      (mul_nonneg (by linarith) (sampleVar_nonneg xs))
      (mul_nonneg (by linarith) (sampleVar_nonneg ys))
  · linarith

/-- C10: `cohen_d` returns NaN — rather than raising or dividing by zero —
whenever either sample has fewer than 2 non-missing values or the pooled
standard deviation is zero (its radicand is zero); whenever a value is
returned, its denominator's radicand is strictly positive, so the division by
the pooled standard deviation is unreachable in the degenerate cases. -/
theorem c10_cohen_d_safe (x y : List (Option ℚ)) :
    (((dropna x).length < 2 ∨ (dropna y).length < 2 ∨
        pooledSq (dropna x) (dropna y) = 0) → cohen_d x y = CohenResult.nan)
    ∧ ∀ m p, cohen_d x y = CohenResult.val m p →
        0 < p ∧ p = pooledSq (dropna x) (dropna y) := by
  constructor
  · intro h
    simp only [cohen_d]
    by_cases h1 : (dropna x).length < 2 ∨ (dropna y).length < 2
    · rw [if_pos h1]
    · rw [if_neg h1]
      have h2 : pooledSq (dropna x) (dropna y) = 0 := by tauto
      rw [if_pos h2]
  · intro m p hmp
    simp only [cohen_d] at hmp
    by_cases h1 : (dropna x).length < 2 ∨ (dropna y).length < 2
    · rw [if_pos h1] at hmp
      exact CohenResult.noConfusion hmp
    · rw [if_neg h1] at hmp
      by_cases h2 : pooledSq (dropna x) (dropna y) = 0
      · rw [if_pos h2] at hmp
        exact CohenResult.noConfusion hmp
      · rw [if_neg h2] at hmp
        injection hmp with h3 h4
        push_neg at h1
        subst h4
        exact ⟨lt_of_le_of_ne (pooledSq_nonneg h1.1 h1.2) (Ne.symm h2), rfl⟩

/-- C10 witness: two constant samples have pooled standard deviation zero and
produce NaN. -/
theorem c10_witness :
    cohen_d [some 1, some 1] [some 2, some 2] = CohenResult.nan :=
  (c10_cohen_d_safe [some 1, some 1] [some 2, some 2]).1
    (Or.inr (Or.inr (by
      norm_num [pooledSq, sampleVar, listMean, dropna, List.filterMap_cons,
        List.filterMap_nil, List.sum_cons, List.sum_nil, List.map_cons,
        List.map_nil, List.length_cons])))

end PharmaPulse
